import Mathlib

/-!
A shallow embedding of the core of the redis-server-build repository
(src/core.ts, src/utils.ts and the persistence module) in Lean 4,
together with theorems settling the frozen claims about it.

Modelling conventions, chosen to stay faithful to the JavaScript runtime:
* JavaScript numbers that may be NaN or come from an undefined lookup are
  modelled as the type JsNum := Option Int, with none standing for NaN;
  every arithmetic comparison on none is false, as in JS.
* A store entry is a record with a string type tag and an untyped value,
  exactly as in the source (type StoreType = Record of key to
  open-brace type, value close-brace); the value is a JsVal, either a
  string or an array of strings.
* Calling an array method on a string payload throws a TypeError in JS;
  handlers return none (Option) on those paths.  The transport layer
  (server.ts) catches such exceptions per message, and replayAofSync
  wraps its replay loop in a try/catch that aborts the remaining replay.
* Date.now() is passed explicitly as the parameter now.
* String.length in Lean counts code points while JS counts UTF-16 units;
  the two agree on all inputs used in the theorems below.
-/

namespace RedisSpec

/-- A single-quote character, used to build the error strings of core.ts. -/
def sq : String := String.mk [Char.ofNat 39]

/-- Attach a character to the front of the first piece of a split result. -/
def headCons (c : Char) : List (List Char) → List (List Char)
  | [] => [[c]]
  | p :: ps => (c :: p) :: ps

/-- Model of the JS String.prototype.split with separator a CRLF pair:
greedy left-to-right scan, yielding at least one (possibly empty) piece. -/
def crlfSplitL : List Char → List (List Char)
  | [] => [[]]
  | [c] => [[c]]
  | c :: d :: rest =>
    if c = '\r' && d = '\n' then [] :: crlfSplitL rest
    else headCons c (crlfSplitL (d :: rest))

/-- Model of the JS String.prototype.split with separator a single space. -/
def spaceSplitL : List Char → List (List Char)
  | [] => [[]]
  | c :: rest => if c = ' ' then [] :: spaceSplitL rest else headCons c (spaceSplitL rest)

/-- The character list contains no CRLF pair (the split separator). -/
def noCRLF : List Char → Bool
  | [] => true
  | [_] => true
  | c :: d :: rest => !(c = '\r' && d = '\n') && noCRLF (d :: rest)

/-- The character list contains no space (the AOF separator). -/
def noSpaceL (cs : List Char) : Bool := cs.all (fun c => !(c = ' '))

/-- Whitespace characters recognised by the JS String.prototype.trim
(the ASCII part, which covers every string arising here). -/
def jsWhitespace (c : Char) : Bool :=
  c = ' ' || c = '\t' || c = '\n' || c = '\r' || c = Char.ofNat 11 || c = Char.ofNat 12

/-- The line survives the replay filter: log.trim() is not empty. -/
def hasNonWS (cs : List Char) : Bool := cs.any (fun c => !jsWhitespace c)

/-- Decimal digit character. -/
def digitChar : Nat → Char
  | 0 => '0' | 1 => '1' | 2 => '2' | 3 => '3' | 4 => '4'
  | 5 => '5' | 6 => '6' | 7 => '7' | 8 => '8' | _ => '9'

/-- Fuel-driven decimal rendering of a natural number (the fuel is always
sufficient because the argument shrinks by a factor of ten each step). -/
def natToCharsCore : Nat → Nat → List Char
  | 0, _ => []
  | fuel + 1, n => if n < 10 then [digitChar n] else natToCharsCore fuel (n / 10) ++ [digitChar (n % 10)]

/-- Decimal rendering of a natural number, as JS template interpolation does. -/
def natToChars (n : Nat) : List Char := natToCharsCore (n + 1) n

/-- Decimal rendering as a string. -/
def natToStr (n : Nat) : String := String.mk (natToChars n)

/-- Model of parseInt(s, 10): skip leading whitespace, optional sign, then a
non-empty maximal run of decimal digits; none models the NaN result. -/
def parseIntL (cs : List Char) : Option Int :=
  let scan : List Char → Option Nat := fun ds =>
    let run := ds.takeWhile Char.isDigit
    if run = [] then none
    else some (run.foldl (fun acc c => acc * 10 + (c.toNat - 48)) 0)
  match cs.dropWhile jsWhitespace with
  | '-' :: rest => (scan rest).map (fun n => -(n : Int))
  | '+' :: rest => (scan rest).map (fun n => (n : Int))
  | other => (scan other).map (fun n => (n : Int))

/-- parseInt on strings. -/
def parseIntJs (s : String) : Option Int := parseIntL s.data

/-- Model of Array.prototype.join with the given separator. -/
def joinSep (sep : String) : List String → String
  | [] => ""
  | [x] => x
  | x :: y :: rest => x ++ sep ++ joinSep sep (y :: rest)

/-- Concatenation of a list of strings. -/
def concatAll : List String → String
  | [] => ""
  | x :: rest => x ++ concatAll rest

/-- Model of filter over array indices keeping the even positions, as
parseCommand does with (_, index) => index % 2 === 0. -/
def everyOther {α : Type} : List α → List α
  | [] => []
  | [a] => [a]
  | a :: _ :: rest => a :: everyOther rest

/-- Model of String.prototype.toUpperCase (ASCII-faithful). -/
def jsToUpperCase (s : String) : String := s.toUpper

/-- split on CRLF, at the string level. -/
def crlfSplitStr (s : String) : List String := (crlfSplitL s.data).map String.mk

/-- split on a space, at the string level. -/
def spaceSplitStr (s : String) : List String := (spaceSplitL s.data).map String.mk

/-- A JS number that may be NaN: none is NaN (or an undefined lookup used in
arithmetic, which behaves identically in every expression below). -/
abbrev JsNum : Type := Option Int

/-- The truthiness-then-compare test x && x < now of isExpired: false for
undefined, NaN and 0. -/
def jsTruthyLt (x : Option JsNum) (now : Int) : Bool :=
  match x with
  | some (some t) => !(t = 0) && decide (t < now)
  | _ => false

/-- An undefined lookup entering arithmetic becomes NaN. -/
def jsNumOf : Option JsNum → JsNum
  | none => none
  | some x => x

/-- NaN < c is false in JS. -/
def jsLtZero : JsNum → Bool
  | none => false
  | some t => decide (t < 0)

/-- JS template rendering of a number (NaN prints as NaN). -/
def jsNumRepr : JsNum → String
  | none => "NaN"
  | some n => toString n

/-- The untyped value stored under a key: a string or an array of strings. -/
inductive JsVal : Type where
  | str (s : String)
  | arr (l : List String)
  deriving DecidableEq, Repr

/-- One store entry: the dynamic type tag and the value, as in StoreType. -/
structure Entry where
  type : String
  value : JsVal
  deriving DecidableEq, Repr

/-- String coercion of a value (JS String(x): arrays join with a comma). -/
def jsValCoerceStr : JsVal → String
  | JsVal.str s => s
  | JsVal.arr l => joinSep ("," ) l

/-- The .length property of the value (string length or array length). -/
def jsValLength : JsVal → Nat
  | JsVal.str s => s.length
  | JsVal.arr l => l.length

/-- The pair of maps owned by the persistence object and mutated by core.ts. -/
@[ext] structure Keyspace where
  store : String → Option Entry
  expirationTimes : String → Option JsNum

/-- The keyspace at process start. -/
def emptyKeyspace : Keyspace :=
  { store := fun _ => none, expirationTimes := fun _ => none }

/-- store[key] = e. -/
def setStore (ks : Keyspace) (key : String) (e : Entry) : Keyspace :=
  { ks with store := fun k2 => if k2 = key then some e else ks.store k2 }

/-- delete store[key]. -/
def delStore (ks : Keyspace) (key : String) : Keyspace :=
  { ks with store := fun k2 => if k2 = key then none else ks.store k2 }

/-- expirationTimes[key] = t. -/
def setExp (ks : Keyspace) (key : String) (t : JsNum) : Keyspace :=
  { ks with expirationTimes := fun k2 => if k2 = key then some t else ks.expirationTimes k2 }

/-- delete expirationTimes[key]. -/
def delExp (ks : Keyspace) (key : String) : Keyspace :=
  { ks with expirationTimes := fun k2 => if k2 = key then none else ks.expirationTimes k2 }

/-- isExpired from core.ts: the expiration entry is truthy and smaller than
Date.now(). -/
def isExpired (now : Int) (ks : Keyspace) (key : String) : Bool :=
  jsTruthyLt (ks.expirationTimes key) now

/-- checkExpiry from core.ts: on an expired key, delete it from the store and
the expiration times and report true. -/
def checkExpiry (now : Int) (ks : Keyspace) (key : String) : Bool × Keyspace :=
  if isExpired now ks key then (true, delExp (delStore ks key) key) else (false, ks)

/-- The result of one handler call: the reply string and the new keyspace,
or none when the JS code throws a TypeError (an array method on a string). -/
abbrev HandlerResult : Type := Option (String × Keyspace)

/-- A command handler: Date.now(), the keyspace and the argument list. -/
abbrev Handler : Type := Int → Keyspace → List String → HandlerResult

/-- The arity error string shared by most handlers. -/
def arityErr (cmd : String) : String :=
  "-ERR wrong number of arguments for " ++ sq ++ cmd ++ sq ++ " command\r\n"

/-- Bulk-string reply of an item. -/
def bulkReply (v : String) : String :=
  "$" ++ toString v.length ++ "\r\n" ++ v ++ "\r\n"

/-- commandHandlers.SET: overwrites the key with a string entry
unconditionally (the typeof check on the value can never fire, because every
parsed argument is a string). -/
def SET : Handler := fun _ ks args =>
  match args with
  | key :: value :: _ =>
    some ("+OK\r\n", setStore ks key { type := "string", value := JsVal.str value })
  | _ => some (arityErr ("set"), ks)

/-- commandHandlers.GET. -/
def GET : Handler := fun now ks args =>
  match args with
  | key :: _ =>
    let r := checkExpiry now ks key
    if r.1 then some ("$-1\r\n", r.2)
    else
      match r.2.store key with
      | none => some ("$-1\r\n", r.2)
      | some e =>
        if e.type = "string" then
          some ("$" ++ toString (jsValLength e.value) ++ "\r\n" ++ jsValCoerceStr e.value ++ "\r\n", r.2)
        else some ("$-1\r\n", r.2)
  | [] => some ("-ERR missing argument for " ++ sq ++ "get" ++ sq ++ " command\r\n", ks)

/-- commandHandlers.DELETE: no expiry check; deletes both maps if present. -/
def DELETE : Handler := fun _ ks args =>
  match args with
  | key :: _ =>
    match ks.store key with
    | some _ => some (":1\r\n", delExp (delStore ks key) key)
    | none => some (":0\r\n", ks)
  | [] => some (arityErr ("delete"), ks)

/-- commandHandlers.EXPIRE: parseInt(seconds) * 1000 + Date.now(), written
unconditionally (NaN if the seconds do not parse; no existence check). -/
def EXPIRE : Handler := fun now ks args =>
  match args with
  | key :: seconds :: _ =>
    let expirationTime : JsNum := (parseIntJs seconds).map (fun n => n * 1000 + now)
    some ("+OK\r\n", setExp ks key expirationTime)
  | _ => some (arityErr ("expire"), ks)

/-- commandHandlers.TTL.  Note the JS arithmetic: an absent expiration entry
gives ttl = undefined - now = NaN, NaN < 0 is false, and the reply becomes
the literal :NaN. -/
def TTL : Handler := fun now ks args =>
  match args with
  | key :: _ =>
    let r := checkExpiry now ks key
    if r.1 then some ("-1\r\n", r.2)
    else
      match r.2.store key with
      | none => some ("-2\r\n", r.2)
      | some _ =>
        let ttl : JsNum := (jsNumOf (r.2.expirationTimes key)).map (fun t => t - now)
        if jsLtZero ttl then some ("-1\r\n", r.2)
        else some (":" ++ jsNumRepr (ttl.map (fun t => Int.fdiv t 1000)) ++ "\r\n", r.2)
  | [] => some (arityErr ("ttl"), ks)

/-- commandHandlers.INCR.  parseInt coerces the stored value to a string
first (arrays join with commas), and the new value is written back as a
string while the type tag is left untouched. -/
def INCR : Handler := fun now ks args =>
  match args with
  | key :: _ =>
    let r := checkExpiry now ks key
    if r.1 then some ("-1\r\n", r.2)
    else
      match r.2.store key with
      | none => some (":1\r\n", setStore r.2 key { type := "string", value := JsVal.str ("1") })
      | some e =>
        match parseIntJs (jsValCoerceStr e.value) with
        | none => some ("-ERR value is not an integer or out of range\r\n", r.2)
        | some n =>
          some (":" ++ toString (n + 1) ++ "\r\n",
            setStore r.2 key { type := e.type, value := JsVal.str (toString (n + 1)) })
  | [] => some (arityErr ("incr"), ks)

/-- commandHandlers.DECR, symmetric to INCR. -/
def DECR : Handler := fun now ks args =>
  match args with
  | key :: _ =>
    let r := checkExpiry now ks key
    if r.1 then some ("-1\r\n", r.2)
    else
      match r.2.store key with
      | none => some (":-1\r\n", setStore r.2 key { type := "string", value := JsVal.str ("-1") })
      | some e =>
        match parseIntJs (jsValCoerceStr e.value) with
        | none => some ("-ERR value is not an integer or out of range\r\n", r.2)
        | some n =>
          some (":" ++ toString (n - 1) ++ "\r\n",
            setStore r.2 key { type := e.type, value := JsVal.str (toString (n - 1)) })
  | [] => some (arityErr ("decr"), ks)

/-- commandHandlers.LPUSH.  On an absent key the code first writes an empty
list entry and then unshifts all the values into it; on a string payload
under a list tag the unshift call throws (none). -/
def LPUSH : Handler := fun now ks args =>
  match args with
  | key :: v1 :: vrest =>
    let value := v1 :: vrest
    let r := checkExpiry now ks key
    if r.1 then some ("-1\r\n", r.2)
    else
      match r.2.store key with
      | none =>
        let ks2 := setStore r.2 key { type := "list", value := JsVal.arr [] }
        some (":" ++ toString (value ++ ([] : List String)).length ++ "\r\n",
          setStore ks2 key { type := "list", value := JsVal.arr (value ++ []) })
      | some e =>
        if e.type = "list" then
          match e.value with
          | JsVal.arr l =>
            some (":" ++ toString (value ++ l).length ++ "\r\n",
              setStore r.2 key { type := e.type, value := JsVal.arr (value ++ l) })
          | JsVal.str _ => none
        else some ("-ERR wrong type of key\r\n", r.2)
  | _ => some (arityErr ("lpush"), ks)

/-- commandHandlers.RPUSH, pushing at the end. -/
def RPUSH : Handler := fun now ks args =>
  match args with
  | key :: v1 :: vrest =>
    let value := v1 :: vrest
    let r := checkExpiry now ks key
    if r.1 then some ("-1\r\n", r.2)
    else
      match r.2.store key with
      | none =>
        let ks2 := setStore r.2 key { type := "list", value := JsVal.arr [] }
        some (":" ++ toString (([] : List String) ++ value).length ++ "\r\n",
          setStore ks2 key { type := "list", value := JsVal.arr ([] ++ value) })
      | some e =>
        if e.type = "list" then
          match e.value with
          | JsVal.arr l =>
            some (":" ++ toString (l ++ value).length ++ "\r\n",
              setStore r.2 key { type := e.type, value := JsVal.arr (l ++ value) })
          | JsVal.str _ => none
        else some ("-ERR wrong type of key\r\n", r.2)
  | _ => some (arityErr ("rpush"), ks)

/-- commandHandlers.LPOP: shift; on an emptied list delete the key and its
expiration entry. -/
def LPOP : Handler := fun now ks args =>
  match args with
  | key :: _ =>
    let r := checkExpiry now ks key
    if r.1 then some ("-1\r\n", r.2)
    else
      match r.2.store key with
      | none => some ("$-1\r\n", r.2)
      | some e =>
        if e.type = "list" then
          match e.value with
          | JsVal.arr [] => some ("$-1\r\n", r.2)
          | JsVal.arr (v :: l) =>
            if l = [] then some (bulkReply v, delExp (delStore r.2 key) key)
            else some (bulkReply v, setStore r.2 key { type := e.type, value := JsVal.arr l })
          | JsVal.str _ => none
        else some ("$-1\r\n", r.2)
  | [] => some (arityErr ("lpop"), ks)

/-- commandHandlers.RPOP: pop from the end, same emptying rule. -/
def RPOP : Handler := fun now ks args =>
  match args with
  | key :: _ =>
    let r := checkExpiry now ks key
    if r.1 then some ("-1\r\n", r.2)
    else
      match r.2.store key with
      | none => some ("$-1\r\n", r.2)
      | some e =>
        if e.type = "list" then
          match e.value with
          | JsVal.arr [] => some ("$-1\r\n", r.2)
          | JsVal.arr (v :: l) =>
            let popped := (v :: l).getLast (by simp)
            let kept := (v :: l).dropLast
            if kept = [] then some (bulkReply popped, delExp (delStore r.2 key) key)
            else some (bulkReply popped, setStore r.2 key { type := e.type, value := JsVal.arr kept })
          | JsVal.str _ => none
        else some ("$-1\r\n", r.2)
  | [] => some (arityErr ("rpop"), ks)

/-- Model of Array.prototype.slice(s, e) with possibly negative or NaN
arguments already converted to integers (NaN is converted to 0 by the
callers below, as ToIntegerOrInfinity does). -/
def jsSlice (l : List String) (s e : Int) : List String :=
  let len : Int := l.length
  let s1 := if s < 0 then max (len + s) 0 else min s len
  let e1 := if e < 0 then max (len + e) 0 else min e len
  (l.take e1.toNat).drop s1.toNat

/-- commandHandlers.LRANGE: slice(start, end + 1), then the array reply is
the star header plus the items joined BETWEEN by CRLF plus one final CRLF
(so an empty range yields a stray blank line). -/
def LRANGE : Handler := fun now ks args =>
  match args with
  | key :: start :: endArg :: _ =>
    let r := checkExpiry now ks key
    if r.1 then some ("-1\r\n", r.2)
    else
      match r.2.store key with
      | none => some ("$-1\r\n", r.2)
      | some e =>
        if e.type = "list" then
          match e.value with
          | JsVal.arr list =>
            let startIndex := (parseIntJs start).getD 0
            let endIndex := ((parseIntJs endArg).map (fun n => n + 1)).getD 0
            let range := jsSlice list startIndex endIndex
            some ("*" ++ toString range.length ++ "\r\n" ++
              joinSep ("\r\n") (range.map (fun item => "$" ++ toString item.length ++ "\r\n" ++ item)) ++
              "\r\n", r.2)
          | JsVal.str _ => none
        else some ("$-1\r\n", r.2)
  | _ => some (arityErr ("lrange"), ks)

/-- commandHandlers.COMMAND: a stub. -/
def COMMAND : Handler := fun _ ks _ => some ("+OK\r\n", ks)

/-- The dispatch table of core.ts. -/
def commandHandlers (cmd : String) : Option Handler :=
  if cmd = "SET" then some SET
  else if cmd = "GET" then some GET
  else if cmd = "DELETE" then some DELETE
  else if cmd = "EXPIRE" then some EXPIRE
  else if cmd = "TTL" then some TTL
  else if cmd = "INCR" then some INCR
  else if cmd = "DECR" then some DECR
  else if cmd = "LPUSH" then some LPUSH
  else if cmd = "RPUSH" then some RPUSH
  else if cmd = "LPOP" then some LPOP
  else if cmd = "RPOP" then some RPOP
  else if cmd = "LRANGE" then some LRANGE
  else if cmd = "COMMAND" then some COMMAND
  else none

/-- The configuration surface consumed by core.ts (config.json itself is not
part of the sources, so its two relevant fields are kept abstract). -/
structure Config where
  appendOnly : Bool
  appendOnlyCmds : List String

/-- shouldAppendToAOF from core.ts. -/
def shouldAppendToAOF (cfg : Config) (command : String) : Bool :=
  cfg.appendOnly && cfg.appendOnlyCmds.contains command

/-- The state visible to executeCommand: the keyspace plus the append-only
file, kept as the list of appended lines (each line is written to the file
followed by CRLF, in invocation order). -/
@[ext] structure St where
  ks : Keyspace
  log : List String

/-- The state at process start with an empty AOF. -/
def emptySt : St := { ks := emptyKeyspace, log := [] }

/-- executeCommand from core.ts: dispatch, run the handler, and (except on
replay) notify the durability subsystem, which appends the line
command SP args.join(SP) when shouldAppendToAOF holds.  A thrown handler
exception (none) propagates before any append happens. -/
def executeCommand (cfg : Config) (now : Int) (command : String) (args : List String)
    (replayFromAOF : Bool) (st : St) : Option (String × St) :=
  match commandHandlers command with
  | none => some ("-ERR unknown command " ++ command ++ "\r\n", st)
  | some handler =>
    match handler now st.ks args with
    | none => none
    | some (reply, ks2) =>
      some (reply,
        { ks := ks2,
          log :=
            if replayFromAOF then st.log
            else if shouldAppendToAOF cfg command then
              st.log ++ [command ++ " " ++ joinSep (" ") args]
            else st.log })

/-- A live run: each inbound message is executed to completion; a thrown
exception is caught at the transport boundary (server.ts) and leaves the
state as it was. -/
def runLive (cfg : Config) (now : Int) : List (String × List String) → St → St
  | [], st => st
  | (c, as) :: rest, st =>
    match executeCommand cfg now c as false st with
    | none => runLive cfg now rest st
    | some (_, st2) => runLive cfg now rest st2

/-- The content of the append-only file produced by a state. -/
def fileOf (st : St) : String := concatAll (st.log.map (fun l => l ++ "\r\n"))

/-- One log line split on spaces into command and arguments, as the replay
loop does with destructuring. -/
def parseLogLine (l : String) : String × List String :=
  match spaceSplitStr l with
  | [] => ("", [])
  | c :: as => (c, as)

/-- The replay loop of replayAofSync: execute each entry with the replay
flag set; the surrounding try/catch aborts the remaining replay when an
entry throws. -/
def replayList (cfg : Config) (now : Int) : List (String × List String) → St → St
  | [], st => st
  | (c, as) :: rest, st =>
    match executeCommand cfg now c as true st with
    | none => st
    | some (_, st2) => replayList cfg now rest st2

/-- The same loop in an Option, none when some entry throws (used to state
that the replays below run to completion). -/
def replayListOpt (cfg : Config) (now : Int) : List (String × List String) → St → Option St
  | [], st => some st
  | (c, as) :: rest, st =>
    match executeCommand cfg now c as true st with
    | none => none
    | some (_, st2) => replayListOpt cfg now rest st2

/-- Persistence.replayAofSync: no-op unless append-only mode is on; split
the file on CRLF, drop lines that trim to nothing, re-execute each in file
order with the replay flag set. -/
def replayAofSync (cfg : Config) (now : Int) (file : String) (st : St) : St :=
  if cfg.appendOnly then
    replayList cfg now
      (((crlfSplitStr file).filter (fun l => hasNonWS l.data)).map parseLogLine) st
  else st

/-- The structured content of the snapshot file:
store and expirationTimes.  The JSON codec and the filesystem are outside
the repository; per the spec (section 6) the serialization round-trips
without loss for the supported value shapes (strings, arrays of strings
and non-NaN numbers), so the file content is modelled structurally. -/
structure Snapshot where
  store : String → Option Entry
  expirationTimes : String → Option JsNum

/-- Persistence.saveSnapshotAsync: serialize both maps. -/
def saveSnapshot (ks : Keyspace) : Snapshot :=
  { store := ks.store, expirationTimes := ks.expirationTimes }

/-- Persistence.loadSnapshotSync: Object.assign merge of the loaded maps
into the live ones, loaded entries winning on overlapping keys. -/
def loadSnapshot (snap : Snapshot) (ks : Keyspace) : Keyspace :=
  { store := fun k =>
      match snap.store k with
      | some e => some e
      | none => ks.store k,
    expirationTimes := fun k =>
      match snap.expirationTimes k with
      | some t => some t
      | none => ks.expirationTimes k }

/-- buildRedisCommand from src/utils.ts: split the input line on spaces and
emit a multi-bulk frame. -/
def buildRedisCommand (input : String) : String :=
  let args := spaceSplitStr input
  "*" ++ natToStr args.length ++ "\r\n" ++
    concatAll (args.map (fun arg => "$" ++ natToStr arg.length ++ "\r\n" ++ arg ++ "\r\n"))

/-- parseCommand from core.ts: split on CRLF, drop empty lines, take line 2
uppercased as the command and every other line from index 4 as the
arguments.  When line 2 does not exist the JS code throws a TypeError
(caught by server.ts); that is the none result. -/
def parseCommand (data : String) : Option (String × List String) :=
  let lines := (crlfSplitStr data).filter (fun l => !(l == ""))
  match lines.get? 2 with
  | none => none
  | some cl => some (jsToUpperCase cl, everyOther (lines.drop 4))

/-! Basic lemmas about the keyspace helpers. -/

theorem setStore_store_same (ks : Keyspace) (k : String) (e : Entry) :
    (setStore ks k e).store k = some e := by
  simp [setStore]

theorem setStore_expirationTimes (ks : Keyspace) (k : String) (e : Entry) :
    (setStore ks k e).expirationTimes = ks.expirationTimes := rfl

theorem setStore_setStore (ks : Keyspace) (k : String) (a b : Entry) :
    setStore (setStore ks k a) k b = setStore ks k b := by
  ext k2
  · by_cases h : k2 = k <;> simp [setStore, h]
  · rfl

theorem checkExpiry_of_not_expired (now : Int) (ks : Keyspace) (k : String)
    (h : isExpired now ks k = false) : checkExpiry now ks k = (false, ks) := by
  simp [checkExpiry, h]

theorem checkExpiry_of_expired (now : Int) (ks : Keyspace) (k : String)
    (h : isExpired now ks k = true) :
    checkExpiry now ks k = (true, delExp (delStore ks k) k) := by
  simp [checkExpiry, h]

theorem purge_store (ks : Keyspace) (k : String) :
    (delExp (delStore ks k) k).store k = none := by
  simp [delExp, delStore]

theorem purge_expirationTimes (ks : Keyspace) (k : String) :
    (delExp (delStore ks k) k).expirationTimes k = none := by
  simp [delExp, delStore]

/-- C10: for every key not present in the store map, DELETE returns the
reply :0 and leaves the store and the expiration index completely
unchanged (in particular a dangling expiration entry survives). -/
theorem DELETE_absent_is_noop (now : Int) (ks : Keyspace) (k : String)
    (h : ks.store k = none) : DELETE now ks [k] = some (":0\r\n", ks) := by
  simp [DELETE, h]

/-- Witness for C10: EXPIRE on the absent key k leaves a dangling
expiration entry, and DELETE k then replies :0 and keeps the whole state,
dangling entry included. -/
theorem DELETE_absent_is_noop_witness :
    EXPIRE 0 emptyKeyspace (["k", "5"]) = some ("+OK\r\n", setExp emptyKeyspace ("k") (some 5000))
    ∧ DELETE 0 (setExp emptyKeyspace ("k") (some 5000)) (["k"]) =
        some (":0\r\n", setExp emptyKeyspace ("k") (some 5000))
    ∧ (setExp emptyKeyspace ("k") (some 5000)).expirationTimes ("k") = some (some 5000) := by
  refine ⟨?_, DELETE_absent_is_noop 0 (setExp emptyKeyspace ("k") (some 5000)) ("k") rfl, by simp [setExp]⟩
  have h5 : parseIntJs ("5") = some 5 := by decide
  simp [EXPIRE, h5]

/-- C2 counterexample: with k holding the list [a], SET k b succeeds with
+OK and silently replaces the list entry by a string entry, so a write of
the other type is not rejected and the tag changes implicitly. -/
theorem SET_overwrites_list_counterexample :
    (SET 0 (setStore emptyKeyspace ("k") { type := "list", value := JsVal.arr (["a"]) })
        (["k", "b"])).map (fun p => (p.1, p.2.store ("k")))
      = some ("+OK\r\n", some { type := "string", value := JsVal.str ("b") }) := by
  decide

/-- C2 amended: the list write commands LPUSH and RPUSH on an unexpired key
holding a string are rejected with the wrong-type error and leave the
keyspace untouched, but SET is an exception: on a key holding an entry of
any type it replies +OK and overwrites the entry with a string one. -/
theorem type_tag_discipline (now : Int) (ks : Keyspace) (k v : String) (vs : List String)
    (hexp : isExpired now ks k = false) :
    (∀ s, ks.store k = some { type := "string", value := JsVal.str s } →
        LPUSH now ks (k :: v :: vs) = some ("-ERR wrong type of key\r\n", ks)
        ∧ RPUSH now ks (k :: v :: vs) = some ("-ERR wrong type of key\r\n", ks))
    ∧ (∀ e, ks.store k = some e →
        SET now ks [k, v] = some ("+OK\r\n", setStore ks k { type := "string", value := JsVal.str v })) := by
  constructor
  · intro s hs
    constructor
    · simp [LPUSH, checkExpiry_of_not_expired now ks k hexp, hs]
    · simp [RPUSH, checkExpiry_of_not_expired now ks k hexp, hs]
  · intro e _
    simp [SET]

/-- Witness for C2 amended: a concrete keyspace holding a string under k. -/
theorem type_tag_discipline_witness :
    LPUSH 0 (setStore emptyKeyspace ("k") { type := "string", value := JsVal.str ("x") })
        (["k", "a"]) =
      some ("-ERR wrong type of key\r\n",
        setStore emptyKeyspace ("k") { type := "string", value := JsVal.str ("x") }) :=
  ((type_tag_discipline 0
      (setStore emptyKeyspace ("k") { type := "string", value := JsVal.str ("x") })
      ("k") ("a") [] rfl).1 ("x") (by simp [setStore])).1

/-- C6: LPUSH k v1 .. vn (n at least 1) on an unexpired key inserts the
values at the front in the given order, creating the list if the key is
absent, and replies with the new length; on a key holding a string it
replies with the wrong-type error and leaves the entry unchanged. -/
theorem LPUSH_spec (now : Int) (ks : Keyspace) (k v : String) (vs : List String)
    (hexp : isExpired now ks k = false) :
    (ks.store k = none →
        LPUSH now ks (k :: v :: vs) =
          some (":" ++ toString (v :: vs).length ++ "\r\n",
            setStore ks k { type := "list", value := JsVal.arr (v :: vs) }))
    ∧ (∀ l, ks.store k = some { type := "list", value := JsVal.arr l } →
        LPUSH now ks (k :: v :: vs) =
          some (":" ++ toString ((v :: vs) ++ l).length ++ "\r\n",
            setStore ks k { type := "list", value := JsVal.arr ((v :: vs) ++ l) }))
    ∧ (∀ s, ks.store k = some { type := "string", value := JsVal.str s } →
        LPUSH now ks (k :: v :: vs) = some ("-ERR wrong type of key\r\n", ks)) := by
  refine ⟨fun h => ?_, fun l h => ?_, fun s h => ?_⟩
  · simp [LPUSH, checkExpiry_of_not_expired now ks k hexp, h, setStore_setStore]
  · simp [LPUSH, checkExpiry_of_not_expired now ks k hexp, h]
  · simp [LPUSH, checkExpiry_of_not_expired now ks k hexp, h]

/-- Witness for C6: pushing a and b onto a fresh key and onto an existing
list, and onto a string-typed key. -/
theorem LPUSH_spec_witness :
    LPUSH 0 emptyKeyspace (["k", "a", "b"]) =
      some (":2\r\n", setStore emptyKeyspace ("k") { type := "list", value := JsVal.arr (["a", "b"]) }) :=
  (LPUSH_spec 0 emptyKeyspace ("k") ("a") (["b"]) rfl).1 rfl

/-- C7: LPOP on an unexpired key holding a non-empty list removes and
returns the first element as a bulk string; when the list becomes empty the
key and its expiration entry are deleted and subsequent GET and TTL treat
the key as absent; on an absent key or one holding a string the reply is
the null bulk. -/
theorem LPOP_spec (now : Int) (ks : Keyspace) (k : String)
    (hexp : isExpired now ks k = false) :
    (∀ v l, ks.store k = some { type := "list", value := JsVal.arr (v :: l) } →
        (l = [] →
          LPOP now ks [k] = some (bulkReply v, delExp (delStore ks k) k)
          ∧ (∀ now2, GET now2 (delExp (delStore ks k) k) [k] =
                some ("$-1\r\n", delExp (delStore ks k) k)
              ∧ TTL now2 (delExp (delStore ks k) k) [k] =
                some ("-2\r\n", delExp (delStore ks k) k)))
        ∧ (l ≠ [] →
          LPOP now ks [k] =
            some (bulkReply v, setStore ks k { type := "list", value := JsVal.arr l })))
    ∧ (ks.store k = none → LPOP now ks [k] = some ("$-1\r\n", ks))
    ∧ (∀ s, ks.store k = some { type := "string", value := JsVal.str s } →
        LPOP now ks [k] = some ("$-1\r\n", ks)) := by
  refine ⟨fun v l h => ⟨fun hl => ?_, fun hl => ?_⟩, fun h => ?_, fun s h => ?_⟩
  · subst hl
    refine ⟨by simp [LPOP, checkExpiry_of_not_expired now ks k hexp, h], fun now2 => ⟨?_, ?_⟩⟩
    · have hexp2 : isExpired now2 (delExp (delStore ks k) k) k = false := by
        simp [isExpired, purge_expirationTimes, jsTruthyLt]
      simp [GET, checkExpiry_of_not_expired now2 _ k hexp2, purge_store]
    · have hexp2 : isExpired now2 (delExp (delStore ks k) k) k = false := by
        simp [isExpired, purge_expirationTimes, jsTruthyLt]
      simp [TTL, checkExpiry_of_not_expired now2 _ k hexp2, purge_store]
  · simp [LPOP, checkExpiry_of_not_expired now ks k hexp, h, hl]
  · simp [LPOP, checkExpiry_of_not_expired now ks k hexp, h]
  · simp [LPOP, checkExpiry_of_not_expired now ks k hexp, h]

/-- Witness for C7: LPOP on a single-element list deletes the key. -/
theorem LPOP_spec_witness :
    LPOP 0 (setStore emptyKeyspace ("k") { type := "list", value := JsVal.arr (["a"]) }) (["k"]) =
      some (bulkReply ("a"),
        delExp (delStore (setStore emptyKeyspace ("k") { type := "list", value := JsVal.arr (["a"]) }) ("k")) ("k")) :=
  (((LPOP_spec 0 (setStore emptyKeyspace ("k") { type := "list", value := JsVal.arr (["a"]) })
      ("k") rfl).1 ("a") [] (by simp [setStore])).1 rfl).1

/-- C1 counterexample: with k expired (expiration 5, now 1000), TTL k
replies -1, while on a keyspace where k was never present it replies -2,
so the handler does not produce the same reply as for an absent key. -/
theorem expiry_gate_counterexample :
    (TTL 1000 (setExp (setStore emptyKeyspace ("k") { type := "string", value := JsVal.str ("v") })
        ("k") (some 5)) (["k"])).map Prod.fst = some ("-1\r\n")
    ∧ (TTL 1000 emptyKeyspace (["k"])).map Prod.fst = some ("-2\r\n") := by
  decide

/-- C1 amended: on a key whose expiration entry is truthy and strictly
below now, every keyed handler that calls checkExpiry deletes the key and
its expiration entry; GET then gives exactly the reply and state of an
absent key, but TTL, INCR, DECR, LPUSH, RPUSH, LPOP, RPOP and LRANGE
instead reply the bare -1 line, and DELETE does no expiry check at all:
on an expired but still stored key it replies :1. -/
theorem expiry_gate_behavior (now : Int) (ks : Keyspace) (k : String)
    (hexp : isExpired now ks k = true) :
    GET now ks [k] = GET now (delExp (delStore ks k) k) [k]
    ∧ GET now ks [k] = some ("$-1\r\n", delExp (delStore ks k) k)
    ∧ TTL now ks [k] = some ("-1\r\n", delExp (delStore ks k) k)
    ∧ INCR now ks [k] = some ("-1\r\n", delExp (delStore ks k) k)
    ∧ DECR now ks [k] = some ("-1\r\n", delExp (delStore ks k) k)
    ∧ (∀ v vs, LPUSH now ks (k :: v :: vs) = some ("-1\r\n", delExp (delStore ks k) k))
    ∧ (∀ v vs, RPUSH now ks (k :: v :: vs) = some ("-1\r\n", delExp (delStore ks k) k))
    ∧ LPOP now ks [k] = some ("-1\r\n", delExp (delStore ks k) k)
    ∧ RPOP now ks [k] = some ("-1\r\n", delExp (delStore ks k) k)
    ∧ (∀ s e, LRANGE now ks [k, s, e] = some ("-1\r\n", delExp (delStore ks k) k))
    ∧ (∀ en, ks.store k = some en → DELETE now ks [k] = some (":1\r\n", delExp (delStore ks k) k)) := by
  have hgate := checkExpiry_of_expired now ks k hexp
  have hexp2 : isExpired now (delExp (delStore ks k) k) k = false := by
    simp [isExpired, purge_expirationTimes, jsTruthyLt]
  refine ⟨?_, ?_, ?_, ?_, ?_, fun v vs => ?_, fun v vs => ?_, ?_, ?_, fun s e => ?_, fun en hen => ?_⟩
  · simp [GET, hgate, checkExpiry_of_not_expired now _ k hexp2, purge_store]
  · simp [GET, hgate]
  · simp [TTL, hgate]
  · simp [INCR, hgate]
  · simp [DECR, hgate]
  · simp [LPUSH, hgate]
  · simp [RPUSH, hgate]
  · simp [LPOP, hgate]
  · simp [RPOP, hgate]
  · simp [LRANGE, hgate]
  · simp [DELETE, hen]

/-- Witness for C1 amended: a concrete expired key. -/
theorem expiry_gate_behavior_witness :
    TTL 1000 (setExp (setStore emptyKeyspace ("k") { type := "string", value := JsVal.str ("v") })
        ("k") (some 5)) (["k"]) =
      some ("-1\r\n",
        delExp (delStore (setExp (setStore emptyKeyspace ("k") { type := "string", value := JsVal.str ("v") })
          ("k") (some 5)) ("k")) ("k")) :=
  (expiry_gate_behavior 1000
    (setExp (setStore emptyKeyspace ("k") { type := "string", value := JsVal.str ("v") })
      ("k") (some 5)) ("k") (by decide)).2.2.1

/-- C4: evaluating TTL at the failing inputs.  On a key that is present
with no expiration entry the reply is the literal :NaN line (the claim and
the spec table say -1), because undefined minus now is NaN and NaN is not
below zero; and on a key absent from the store but carrying a stale
expired expiration entry the reply is -1 (the claim says -2). -/
theorem TTL_no_ttl_returns_NaN :
    (TTL 1000 (setStore emptyKeyspace ("k") { type := "string", value := JsVal.str ("v") })
        (["k"])).map Prod.fst = some (":NaN\r\n")
    ∧ (":NaN\r\n" : String) ≠ "-1\r\n"
    ∧ (TTL 1000 (setExp emptyKeyspace ("k") (some 5)) (["k"])).map Prod.fst = some ("-1\r\n") := by
  decide

/-- C5: saving a snapshot and loading it into the empty keyspace yields the
saved keyspace back, and loading into a non-empty keyspace is a union-merge
where loaded entries win on overlapping keys and other in-memory keys are
kept.  The hypothesis records the JSON restriction of the claim: only
string and list values with real (non-NaN) expiration instants. -/
theorem snapshot_roundtrip_and_merge (ks mem : Keyspace)
    (hwf : ∀ k t, ks.expirationTimes k = some t → t ≠ none) :
    loadSnapshot (saveSnapshot ks) emptyKeyspace = ks
    ∧ (∀ k, ks.store k ≠ none → (loadSnapshot (saveSnapshot ks) mem).store k = ks.store k)
    ∧ (∀ k, ks.store k = none → (loadSnapshot (saveSnapshot ks) mem).store k = mem.store k)
    ∧ (∀ k, ks.expirationTimes k ≠ none →
        (loadSnapshot (saveSnapshot ks) mem).expirationTimes k = ks.expirationTimes k)
    ∧ (∀ k, ks.expirationTimes k = none →
        (loadSnapshot (saveSnapshot ks) mem).expirationTimes k = mem.expirationTimes k) := by
  refine ⟨?_, fun k hk => ?_, fun k hk => ?_, fun k hk => ?_, fun k hk => ?_⟩
  · ext k
    · cases h : ks.store k <;> simp [loadSnapshot, saveSnapshot, emptyKeyspace, h]
    · cases h : ks.expirationTimes k <;> simp [loadSnapshot, saveSnapshot, emptyKeyspace, h]
  · cases h : ks.store k <;> simp_all [loadSnapshot, saveSnapshot]
  · simp [loadSnapshot, saveSnapshot, hk]
  · cases h : ks.expirationTimes k <;> simp_all [loadSnapshot, saveSnapshot]
  · simp [loadSnapshot, saveSnapshot, hk]

/-- Witness for C5: a snapshot with one string entry, one list entry and
one expiration instant round-trips into the empty keyspace. -/
theorem snapshot_roundtrip_and_merge_witness :
    loadSnapshot
        (saveSnapshot (setExp (setStore (setStore emptyKeyspace ("s")
            { type := "string", value := JsVal.str ("v") }) ("l")
            { type := "list", value := JsVal.arr (["a", "b"]) }) ("s") (some 9999)))
        emptyKeyspace =
      setExp (setStore (setStore emptyKeyspace ("s")
          { type := "string", value := JsVal.str ("v") }) ("l")
          { type := "list", value := JsVal.arr (["a", "b"]) }) ("s") (some 9999) :=
  (snapshot_roundtrip_and_merge _ emptyKeyspace (by
    intro k t h
    by_cases hk : k = ("s")
    · subst hk
      simp [setExp, setStore, emptyKeyspace] at h
      simp [← h]
    · simp [setExp, setStore, emptyKeyspace, hk] at h)).1

/-- Array.prototype.slice with non-negative arguments is take-then-drop. -/
theorem jsSlice_nonneg (l : List String) (s e : Int) (hs : 0 ≤ s) (he : 0 ≤ e) :
    jsSlice l s e = (l.take e.toNat).drop s.toNat := by
  have hs2 : ¬s < 0 := by omega
  have he2 : ¬e < 0 := by omega
  simp only [jsSlice, hs2, he2, if_false]
  have htake : l.take (min e (l.length : Int)).toNat = l.take e.toNat := by
    have : (min e (l.length : Int)).toNat = min e.toNat l.length := by omega
    rw [this]
    rw [List.take_eq_take]
    omega
  rw [htake]
  by_cases hlen : s ≤ (l.length : Int)
  · have : (min s (l.length : Int)).toNat = s.toNat := by omega
    rw [this]
  · have h1 : (min s (l.length : Int)).toNat = l.length := by omega
    rw [h1]
    have h2 : (l.take e.toNat).length ≤ l.length := by
      simpa using List.length_take_le e.toNat l
    rw [List.drop_eq_nil_of_le h2, List.drop_eq_nil_of_le (by omega)]

/-- The reply string LRANGE builds for a selected range. -/
def arrayReply (items : List String) : String :=
  "*" ++ toString items.length ++ "\r\n" ++
    joinSep ("\r\n") (items.map (fun item => "$" ++ toString item.length ++ "\r\n" ++ item)) ++
    "\r\n"

theorem strAppend_assoc (a b c : String) : a ++ b ++ c = a ++ (b ++ c) := by
  cases a with | mk la => cases b with | mk lb => cases c with | mk lc =>
  show String.mk ((la ++ lb) ++ lc) = String.mk (la ++ (lb ++ lc))
  rw [List.append_assoc]

theorem joinSep_crlf_eq_concat (items : List String)
    (h : items ≠ []) :
    joinSep ("\r\n") (items.map (fun item => "$" ++ toString item.length ++ "\r\n" ++ item)) ++ "\r\n"
      = concatAll (items.map bulkReply) := by
  induction items with
  | nil => exact absurd rfl h
  | cons x rest ih =>
    cases rest with
    | nil => simp [joinSep, concatAll, bulkReply]
    | cons y rest2 =>
      have hne : y :: rest2 ≠ ([] : List String) := by simp
      calc joinSep ("\r\n") ((x :: y :: rest2).map (fun item => "$" ++ toString item.length ++ "\r\n" ++ item)) ++ "\r\n"
          = ("$" ++ toString x.length ++ "\r\n" ++ x ++ "\r\n") ++
              (joinSep ("\r\n") ((y :: rest2).map (fun item => "$" ++ toString item.length ++ "\r\n" ++ item)) ++ "\r\n") := by
            simp only [List.map_cons, joinSep]
            rw [strAppend_assoc, strAppend_assoc]
        _ = concatAll ((x :: y :: rest2).map bulkReply) := by
            rw [ih hne]
            simp [concatAll, bulkReply]

/-- C8 amended: LRANGE on an unexpired list key with non-negative integer
arguments start and end replies with the star header followed by the items
of the inclusive slice; for a non-empty selection the body is exactly the
concatenation of the bulk encodings of the items, but for an empty
selection the reply is *0 CRLF CRLF with a stray blank line (not *0 CRLF),
because the handler always appends one final CRLF after the join. -/
theorem LRANGE_reply_format (now : Int) (ks : Keyspace) (k s e : String)
    (l : List String) (si ei : Int) (items : List String)
    (hexp : isExpired now ks k = false)
    (hl : ks.store k = some { type := "list", value := JsVal.arr l })
    (hs : parseIntJs s = some si) (he : parseIntJs e = some ei)
    (hsi : 0 ≤ si) (hei : 0 ≤ ei)
    (hitems : items = (l.take (ei.toNat + 1)).drop si.toNat) :
    LRANGE now ks [k, s, e] = some (arrayReply items, ks)
    ∧ (items ≠ [] →
        arrayReply items = "*" ++ toString items.length ++ "\r\n" ++ concatAll (items.map bulkReply))
    ∧ (items = [] → arrayReply items = "*0\r\n" ++ "\r\n") := by
  refine ⟨?_, fun hne => ?_, fun hnil => ?_⟩
  · have hslice : jsSlice l si (ei + 1) = items := by
      have h1 : (ei + 1).toNat = ei.toNat + 1 := by omega
      rw [jsSlice_nonneg l si (ei + 1) hsi (by omega), hitems, h1]
    simp [LRANGE, checkExpiry_of_not_expired now ks k hexp, hl, hs, he, hslice, arrayReply]
  · rw [arrayReply, strAppend_assoc, joinSep_crlf_eq_concat items hne]
  · subst hnil
    decide

/-- Witness for C8 amended: LRANGE k 0 1 on the list [a, b, c]. -/
theorem LRANGE_reply_format_witness :
    LRANGE 0 (setStore emptyKeyspace ("k") { type := "list", value := JsVal.arr (["a", "b", "c"]) })
        (["k", "0", "1"]) =
      some (arrayReply (["a", "b"]),
        setStore emptyKeyspace ("k") { type := "list", value := JsVal.arr (["a", "b", "c"]) }) :=
  (LRANGE_reply_format 0
    (setStore emptyKeyspace ("k") { type := "list", value := JsVal.arr (["a", "b", "c"]) })
    ("k") ("0") ("1") (["a", "b", "c"]) 0 1 (["a", "b"]) rfl (by simp [setStore])
    (by decide) (by decide) (by decide) (by decide) (by decide)).1

/-- C8 counterexample: LRANGE over an empty selected range replies the
bytes *0 CRLF CRLF, not exactly *0 CRLF as the claim states. -/
theorem LRANGE_empty_range_counterexample :
    (LRANGE 0 (setStore emptyKeyspace ("k") { type := "list", value := JsVal.arr (["a"]) })
        (["k", "1", "0"])).map Prod.fst = some ("*0\r\n\r\n")
    ∧ ("*0\r\n\r\n" : String) ≠ "*0\r\n" := by
  decide

/-! Lemmas about the split functions, used for the codec round trip (C9)
and the append-only-file round trip (C3). -/

theorem strMk_data (s : String) : String.mk s.data = s := by
  cases s
  rfl

theorem strData_append (a b : String) : (a ++ b).data = a.data ++ b.data := by
  cases a
  cases b
  rfl

theorem crlfSplitL_cons_ne (c : Char) (rest : List Char) (h : ¬c = '\r') :
    crlfSplitL (c :: rest) = headCons c (crlfSplitL rest) := by
  cases rest with
  | nil => simp [crlfSplitL, headCons]
  | cons d rest2 => simp [crlfSplitL, h]

theorem crlfSplitL_rn (t : List Char) : crlfSplitL ('\r' :: '\n' :: t) = [] :: crlfSplitL t := by
  simp [crlfSplitL]

theorem crlfSplitL_r_not_n (d : Char) (rest : List Char) (h : ¬d = '\n') :
    crlfSplitL ('\r' :: d :: rest) = headCons '\r' (crlfSplitL (d :: rest)) := by
  simp [crlfSplitL, h]

theorem noCRLF_tail (c : Char) (l : List Char) (h : noCRLF (c :: l) = true) :
    noCRLF l = true := by
  cases l with
  | nil => rfl
  | cons d r =>
    have h2 := h
    simp [noCRLF] at h2
    simpa [noCRLF] using h2.2

theorem noCRLF_head (c2 : Char) (l : List Char) (h : noCRLF ('\r' :: c2 :: l) = true) :
    ¬c2 = '\n' := by
  simp [noCRLF] at h
  exact h.1

/-- Splitting on CRLF peels off a CRLF-free chunk followed by the separator. -/
theorem crlfSplit_sep (τ t : List Char) (h : noCRLF τ = true) :
    crlfSplitL (τ ++ '\r' :: '\n' :: t) = τ :: crlfSplitL t := by
  induction τ with
  | nil => simpa using crlfSplitL_rn t
  | cons c τ2 ih =>
    by_cases hc : c = '\r'
    · subst hc
      cases τ2 with
      | nil =>
        rw [List.cons_append, List.nil_append, crlfSplitL_r_not_n ('\r') ('\n' :: t) (by decide),
          crlfSplitL_rn t]
        rfl
      | cons c2 τ3 =>
        have hc2 : ¬c2 = '\n' := noCRLF_head c2 τ3 h
        rw [List.cons_append, List.cons_append, crlfSplitL_r_not_n c2 _ hc2, ← List.cons_append,
          ih (noCRLF_tail _ _ h)]
        rfl
    · rw [List.cons_append, crlfSplitL_cons_ne c _ hc, ih (noCRLF_tail _ _ h)]
      rfl

theorem spaceSplitL_space (t : List Char) : spaceSplitL (' ' :: t) = [] :: spaceSplitL t := by
  simp [spaceSplitL]

theorem spaceSplitL_cons_ne (c : Char) (rest : List Char) (h : ¬c = ' ') :
    spaceSplitL (c :: rest) = headCons c (spaceSplitL rest) := by
  simp [spaceSplitL, h]

/-- Splitting on a space peels off a space-free chunk followed by a space. -/
theorem spaceSplit_sep (τ t : List Char) (h : noSpaceL τ = true) :
    spaceSplitL (τ ++ ' ' :: t) = τ :: spaceSplitL t := by
  induction τ with
  | nil => simpa using spaceSplitL_space t
  | cons c τ2 ih =>
    have hc : ¬c = ' ' := by
      simp [noSpaceL] at h
      simpa using h.1
    have h2 : noSpaceL τ2 = true := by
      simp [noSpaceL] at h ⊢
      exact fun a ha => h.2 a ha
    rw [List.cons_append, spaceSplitL_cons_ne c _ hc, ih h2]
    rfl

/-- A space-free chunk splits into itself alone. -/
theorem spaceSplit_no_sep (τ : List Char) (h : noSpaceL τ = true) :
    spaceSplitL τ = [τ] := by
  induction τ with
  | nil => rfl
  | cons c τ2 ih =>
    have hc : ¬c = ' ' := by
      simp [noSpaceL] at h
      simpa using h.1
    have h2 : noSpaceL τ2 = true := by
      simp [noSpaceL] at h ⊢
      exact fun a ha => h.2 a ha
    rw [spaceSplitL_cons_ne c _ hc, ih h2]
    rfl

/-- The list-of-character-lists mirror of joinSep with a one-space separator. -/
def joinSpaceLC : List (List Char) → List Char
  | [] => []
  | [x] => x
  | x :: y :: rest => x ++ ' ' :: joinSpaceLC (y :: rest)

theorem joinSep_space_data (xs : List String) :
    (joinSep (" ") xs).data = joinSpaceLC (xs.map String.data) := by
  induction xs with
  | nil => rfl
  | cons x rest ih =>
    cases rest with
    | nil => rfl
    | cons y rest2 =>
      show (x ++ " " ++ joinSep (" ") (y :: rest2)).data = _
      rw [strData_append, strData_append, ih]
      simp [joinSpaceLC]

/-- Splitting the space-join of space-free chunks recovers the chunks. -/
theorem spaceSplit_join (xs : List (List Char)) (hne : xs ≠ [])
    (h : ∀ a ∈ xs, noSpaceL a = true) :
    spaceSplitL (joinSpaceLC xs) = xs := by
  induction xs with
  | nil => exact absurd rfl hne
  | cons x rest ih =>
    cases rest with
    | nil => exact spaceSplit_no_sep x (h x (by simp))
    | cons y rest2 =>
      show spaceSplitL (x ++ ' ' :: joinSpaceLC (y :: rest2)) = _
      rw [spaceSplit_sep x _ (h x (by simp)), ih (by simp) (fun a ha => h a (by simp [ha]))]

/-- Splitting a file made of CRLF-terminated CRLF-free lines on CRLF and
keeping the lines accepted by a filter that rejects the empty trailing
piece recovers exactly the lines. -/
theorem crlfSplit_file (p : String → Bool) (lines : List String)
    (h : ∀ l ∈ lines, noCRLF l.data = true ∧ p l = true)
    (hp : p ("") = false) :
    (crlfSplitStr (concatAll (lines.map (fun l => l ++ "\r\n")))).filter p = lines := by
  induction lines with
  | nil =>
    show ((crlfSplitL ("" : String).data).map String.mk).filter p = []
    simp [crlfSplitL, hp]
  | cons l rest ih =>
    have hdata : (concatAll ((l :: rest).map (fun l2 => l2 ++ "\r\n"))).data
        = l.data ++ '\r' :: '\n' :: (concatAll (rest.map (fun l2 => l2 ++ "\r\n"))).data := by
      show ((l ++ "\r\n") ++ concatAll (rest.map (fun l2 => l2 ++ "\r\n"))).data = _
      rw [strData_append, strData_append]
      simp
    show ((crlfSplitL (concatAll ((l :: rest).map (fun l2 => l2 ++ "\r\n"))).data).map String.mk).filter p = l :: rest
    rw [hdata, crlfSplit_sep _ _ (h l (by simp)).1]
    show (String.mk l.data :: (crlfSplitL _).map String.mk).filter p = l :: rest
    rw [strMk_data]
    rw [List.filter_cons_of_pos (by simpa using (h l (by simp)).2)]
    exact congrArg (l :: ·) (ih (fun a ha => h a (by simp [ha])))

/-- Splitting an AOF line commandname SP args.join(SP) back on spaces
recovers the command and the arguments, for a space-free command and
space-free arguments, at least one. -/
theorem parseLogLine_roundtrip (c : String) (as : List String)
    (hc : noSpaceL c.data = true) (hne : as ≠ [])
    (h : ∀ a ∈ as, noSpaceL a.data = true) :
    parseLogLine (c ++ " " ++ joinSep (" ") as) = (c, as) := by
  have hdata : (c ++ " " ++ joinSep (" ") as).data = c.data ++ ' ' :: joinSpaceLC (as.map String.data) := by
    rw [strData_append, strData_append, joinSep_space_data]
    simp
  have hsplit : spaceSplitL (c ++ " " ++ joinSep (" ") as).data = c.data :: as.map String.data := by
    rw [hdata, spaceSplit_sep _ _ hc, spaceSplit_join (as.map String.data) (by simpa using hne)]
    intro a ha
    simp at ha
    obtain ⟨x, hx, rfl⟩ := ha
    exact h x hx
  show (match spaceSplitStr (c ++ " " ++ joinSep (" ") as) with
    | [] => (("" : String), ([] : List String))
    | c2 :: as2 => (c2, as2)) = (c, as)
  rw [spaceSplitStr, hsplit]
  simp [strMk_data]
  have hcomp : (String.mk ∘ String.data) = id := by
    funext s
    exact strMk_data s
  rw [hcomp, List.map_id]

/-- Every character a digit rendering produces is a decimal digit. -/
theorem digitChar_props (m : Nat) :
    ¬digitChar m = '\r' ∧ ¬digitChar m = '\n' ∧ jsWhitespace (digitChar m) = false := by
  unfold digitChar
  split <;> exact ⟨by decide, by decide, by decide⟩

theorem natToCharsCore_props (fuel n : Nat) :
    ∀ c ∈ natToCharsCore fuel n, ¬c = '\r' ∧ ¬c = '\n' ∧ jsWhitespace c = false := by
  induction fuel generalizing n with
  | zero => intro c hc; simp [natToCharsCore] at hc
  | succ fuel ih =>
    intro c hc
    rw [natToCharsCore] at hc
    by_cases h10 : n < 10
    · rw [if_pos h10] at hc
      simp at hc
      subst hc
      exact digitChar_props n
    · rw [if_neg h10] at hc
      rcases List.mem_append.1 hc with h1 | h1
      · exact ih (n / 10) c h1
      · simp at h1
        subst h1
        exact digitChar_props (n % 10)

theorem natToChars_ne_nil (n : Nat) : ¬natToChars n = [] := by
  rw [natToChars, natToCharsCore]
  by_cases h10 : n < 10
  · simp [h10]
  · simp [h10]

/-- A chunk without carriage returns is CRLF-free. -/
theorem noCRLF_of_no_r (l : List Char) (h : ∀ c ∈ l, ¬c = '\r') : noCRLF l = true := by
  induction l with
  | nil => rfl
  | cons c l2 ih =>
    cases l2 with
    | nil => rfl
    | cons d r =>
      simp [noCRLF]
      refine ⟨Or.inl (h c (by simp)), ?_⟩
      simpa using ih (fun a ha => h a (by simp [ha]))

theorem strExt (a b : String) (h : a.data = b.data) : a = b := by
  cases a
  cases b
  cases h
  rfl

theorem concatAll_append (xs ys : List String) :
    concatAll (xs ++ ys) = concatAll xs ++ concatAll ys := by
  induction xs with
  | nil =>
    apply strExt
    rw [strData_append]
    rfl
  | cons x rest ih =>
    show x ++ concatAll (rest ++ ys) = (x ++ concatAll rest) ++ concatAll ys
    rw [ih, strAppend_assoc]

/-- The lines of the frame buildRedisCommand emits: the star header, then a
length line and a content line per token. -/
def frameChunks (ts : List String) : List String :=
  ("*" ++ natToStr ts.length) :: ts.bind (fun a => ["$" ++ natToStr a.length, a])

theorem bindPairs_concat (args : List String) (f : String → String) :
    concatAll ((args.bind (fun a => [f a, a])).map (fun l => l ++ "\r\n"))
      = concatAll (args.map (fun a => f a ++ "\r\n" ++ a ++ "\r\n")) := by
  induction args with
  | nil => rfl
  | cons a rest ih =>
    show concatAll ((([f a, a] ++ rest.bind (fun a => [f a, a])).map (fun l => l ++ "\r\n"))) = _
    rw [List.map_append, concatAll_append, ih]
    apply strExt
    simp [concatAll, strData_append, List.append_assoc]

/-- The frame is the CRLF-terminated concatenation of its chunks. -/
theorem buildRedisCommand_chunks (input : String) :
    buildRedisCommand input
      = concatAll ((frameChunks (spaceSplitStr input)).map (fun l => l ++ "\r\n")) := by
  show "*" ++ natToStr (spaceSplitStr input).length ++ "\r\n" ++
      concatAll ((spaceSplitStr input).map (fun a => "$" ++ natToStr a.length ++ "\r\n" ++ a ++ "\r\n"))
    = concatAll (((("*" ++ natToStr (spaceSplitStr input).length) ::
        (spaceSplitStr input).bind (fun a => ["$" ++ natToStr a.length, a])).map (fun l => l ++ "\r\n")))
  rw [List.map_cons]
  show _ = ("*" ++ natToStr (spaceSplitStr input).length ++ "\r\n") ++
      concatAll (((spaceSplitStr input).bind (fun a => ["$" ++ natToStr a.length, a])).map (fun l => l ++ "\r\n"))
  rw [bindPairs_concat]

theorem star_chunk_data (n : Nat) : ("*" ++ natToStr n).data = '*' :: natToChars n := by
  rw [strData_append]
  rfl

theorem dollar_chunk_data (m : Nat) : ("$" ++ natToStr m).data = '$' :: natToChars m := by
  rw [strData_append]
  rfl

theorem consNat_noCRLF (c0 : Char) (n : Nat) (h0 : ¬c0 = '\r') :
    noCRLF (c0 :: natToChars n) = true := by
  apply noCRLF_of_no_r
  intro c hc
  simp at hc
  rcases hc with rfl | hc
  · exact h0
  · exact (natToCharsCore_props (n + 1) n c hc).1

theorem strNe_empty_of_data_cons (s : String) (c0 : Char) (l : List Char)
    (h : s.data = c0 :: l) : ¬s = "" := by
  intro he
  rw [he] at h
  simp at h

theorem frameChunks_good (ts : List String)
    (h : ∀ t ∈ ts, ¬t = "" ∧ noCRLF t.data = true) :
    ∀ l ∈ frameChunks ts, noCRLF l.data = true ∧ (!(l == "")) = true := by
  intro l hl
  simp only [frameChunks, List.mem_cons, List.mem_bind] at hl
  have goal_of : ∀ s : String, ¬s = "" → noCRLF s.data = true → noCRLF s.data = true ∧ (!(s == "")) = true := by
    intro s h1 h2
    exact ⟨h2, by simp [h1]⟩
  rcases hl with rfl | ⟨a, ha, hl⟩
  · exact goal_of _ (strNe_empty_of_data_cons _ _ _ (star_chunk_data ts.length))
      (by rw [star_chunk_data]; exact consNat_noCRLF _ _ (by decide))
  · simp at hl
    rcases hl with rfl | rfl
    · exact goal_of _ (strNe_empty_of_data_cons _ _ _ (dollar_chunk_data a.length))
        (by rw [dollar_chunk_data]; exact consNat_noCRLF _ _ (by decide))
    · exact goal_of l (h l ha).1 (h l ha).2

theorem everyOther_bind {α : Type} (x : α) (l : List α) (f : α → α) :
    everyOther (x :: l.bind (fun a => [f a, a])) = x :: l := by
  induction l generalizing x with
  | nil => rfl
  | cons a l2 ih =>
    show everyOther (x :: f a :: a :: l2.bind (fun a => [f a, a])) = x :: a :: l2
    rw [everyOther]
    exact congrArg (x :: ·) (ih a)

/-- C9: encoding a command line whose space-separated tokens are non-empty
and free of spaces and CRLF with buildRedisCommand and decoding the frame
with parseCommand yields the first token uppercased as the command and the
remaining tokens, in order, as the arguments. -/
theorem parse_build_roundtrip (input : String) (c : String) (args : List String)
    (hsplit : spaceSplitStr input = c :: args)
    (htok : ∀ t ∈ c :: args, ¬t = "" ∧ noCRLF t.data = true ∧ noSpaceL t.data = true) :
    parseCommand (buildRedisCommand input) = some (jsToUpperCase c, args) := by
  have hlines : (crlfSplitStr (buildRedisCommand input)).filter (fun l => !(l == ""))
      = frameChunks (c :: args) := by
    rw [buildRedisCommand_chunks, hsplit]
    exact crlfSplit_file _ _
      (frameChunks_good _ (fun t ht => ⟨(htok t ht).1, (htok t ht).2.1⟩)) (by decide)
  show (match ((crlfSplitStr (buildRedisCommand input)).filter (fun l => !(l == ""))).get? 2 with
    | none => none
    | some cl => some (jsToUpperCase cl,
        everyOther (((crlfSplitStr (buildRedisCommand input)).filter (fun l => !(l == ""))).drop 4)))
    = some (jsToUpperCase c, args)
  rw [hlines]
  show (match (("*" ++ natToStr (c :: args).length) ::
      ("$" ++ natToStr c.length) :: c :: args.bind (fun a => ["$" ++ natToStr a.length, a])).get? 2 with
    | none => none
    | some cl => some (jsToUpperCase cl,
        everyOther ((("*" ++ natToStr (c :: args).length) ::
          ("$" ++ natToStr c.length) :: c :: args.bind (fun a => ["$" ++ natToStr a.length, a])).drop 4)))
    = some (jsToUpperCase c, args)
  cases args with
  | nil => rfl
  | cons a args2 =>
    show some (jsToUpperCase c,
        everyOther (a :: args2.bind (fun a => ["$" ++ natToStr a.length, a]))) = _
    rw [everyOther_bind]

/-- Witness for C9: the frame for set mykey myvalue decodes back. -/
theorem parse_build_roundtrip_witness :
    parseCommand (buildRedisCommand ("set mykey myvalue"))
      = some (jsToUpperCase ("set"), ["mykey", "myvalue"]) :=
  parse_build_roundtrip ("set mykey myvalue") ("set") (["mykey", "myvalue"])
    (by decide) (by decide)

/-- Every command name the dispatch table knows is space-free, CRLF-free
and does not trim to the empty string. -/
theorem known_cmd_good (c : String) (h : ¬commandHandlers c = none) :
    noCRLF c.data = true ∧ noSpaceL c.data = true ∧ hasNonWS c.data = true := by
  by_cases h1 : c = "SET"
  · subst h1; decide
  by_cases h2 : c = "GET"
  · subst h2; decide
  by_cases h3 : c = "DELETE"
  · subst h3; decide
  by_cases h4 : c = "EXPIRE"
  · subst h4; decide
  by_cases h5 : c = "TTL"
  · subst h5; decide
  by_cases h6 : c = "INCR"
  · subst h6; decide
  by_cases h7 : c = "DECR"
  · subst h7; decide
  by_cases h8 : c = "LPUSH"
  · subst h8; decide
  by_cases h9 : c = "RPUSH"
  · subst h9; decide
  by_cases h10 : c = "LPOP"
  · subst h10; decide
  by_cases h11 : c = "RPOP"
  · subst h11; decide
  by_cases h12 : c = "LRANGE"
  · subst h12; decide
  by_cases h13 : c = "COMMAND"
  · subst h13; decide
  exact absurd (by simp [commandHandlers, h1, h2, h3, h4, h5, h6, h7, h8, h9, h10, h11, h12, h13]) h

theorem noCRLF_cons_mid (mid : Char) (b : List Char) (hr : ¬mid = '\r')
    (hb : noCRLF b = true) : noCRLF (mid :: b) = true := by
  cases b with
  | nil => rfl
  | cons c2 r =>
    simp [noCRLF]
    exact ⟨Or.inl hr, by simpa [noCRLF] using hb⟩

theorem noCRLF_append_mid (a : List Char) (mid : Char) (b : List Char)
    (ha : noCRLF a = true) (hb : noCRLF b = true)
    (hn : ¬mid = '\n') (hr : ¬mid = '\r') :
    noCRLF (a ++ mid :: b) = true := by
  induction a with
  | nil => exact noCRLF_cons_mid mid b hr hb
  | cons c0 a2 ih =>
    cases a2 with
    | nil =>
      show noCRLF (c0 :: mid :: b) = true
      simp [noCRLF]
      exact ⟨Or.inr hn, by simpa [noCRLF] using noCRLF_cons_mid mid b hr hb⟩
    | cons c1 a3 =>
      show noCRLF (c0 :: ((c1 :: a3) ++ mid :: b)) = true
      have h1 : noCRLF (c0 :: c1 :: a3) = true := ha
      simp [noCRLF] at h1
      simp [noCRLF]
      refine ⟨by tauto, ?_⟩
      have := ih (noCRLF_tail c0 (c1 :: a3) ha)
      simpa [noCRLF] using this

theorem noCRLF_joinSpace (xs : List (List Char))
    (h : ∀ a ∈ xs, noCRLF a = true) : noCRLF (joinSpaceLC xs) = true := by
  induction xs with
  | nil => rfl
  | cons x rest ih =>
    cases rest with
    | nil => exact h x (by simp)
    | cons y rest2 =>
      show noCRLF (x ++ ' ' :: joinSpaceLC (y :: rest2)) = true
      exact noCRLF_append_mid x ' ' _ (h x (by simp))
        (ih (fun a ha => h a (by simp [ha]))) (by decide) (by decide)

theorem logLine_data (c : String) (as : List String) :
    (c ++ " " ++ joinSep (" ") as).data = c.data ++ ' ' :: joinSpaceLC (as.map String.data) := by
  rw [strData_append, strData_append, joinSep_space_data]
  simp

/-- An AOF log line for a known command with CRLF-free arguments is itself
CRLF-free and survives the trim filter. -/
theorem logLine_good (c : String) (as : List String)
    (hc : noCRLF c.data = true) (hws : hasNonWS c.data = true)
    (hargs : ∀ a ∈ as, noCRLF a.data = true) :
    noCRLF (c ++ " " ++ joinSep (" ") as).data = true
    ∧ hasNonWS (c ++ " " ++ joinSep (" ") as).data = true := by
  rw [logLine_data]
  constructor
  · apply noCRLF_append_mid _ _ _ hc _ (by decide) (by decide)
    apply noCRLF_joinSpace
    intro a ha
    simp at ha
    obtain ⟨x, hx, rfl⟩ := ha
    exact hargs x hx
  · simp [hasNonWS] at hws ⊢
    obtain ⟨x, hx, hx2⟩ := hws
    exact Or.inl ⟨x, hx, hx2⟩

/-- One replay step in the Option monad. -/
def stepOpt (cfg : Config) (now : Int) (x : String × List String) (s : St) : Option St :=
  match executeCommand cfg now x.1 x.2 true s with
  | none => none
  | some (_, s2) => some s2

theorem replayListOpt_cons (cfg : Config) (now : Int) (x : String × List String)
    (L : List (String × List String)) (s : St) :
    replayListOpt cfg now (x :: L) s = (stepOpt cfg now x s).bind (fun s2 => replayListOpt cfg now L s2) := by
  obtain ⟨c, as⟩ := x
  show (match executeCommand cfg now c as true s with
    | none => none
    | some (_, st2) => replayListOpt cfg now L st2) = _
  rcases h : executeCommand cfg now c as true s with _ | ⟨r, s2⟩ <;> simp [stepOpt, h]

theorem replayListOpt_append (cfg : Config) (now : Int)
    (L : List (String × List String)) (x : String × List String) (s : St) :
    replayListOpt cfg now (L ++ [x]) s
      = (replayListOpt cfg now L s).bind (fun s2 => stepOpt cfg now x s2) := by
  induction L generalizing s with
  | nil =>
    rw [List.nil_append, replayListOpt_cons]
    show _ = stepOpt cfg now x s
    rcases h : stepOpt cfg now x s with _ | s2 <;> simp [h, replayListOpt]
  | cons y L2 ih =>
    rw [List.cons_append, replayListOpt_cons, replayListOpt_cons]
    rcases h : stepOpt cfg now y s with _ | s2 <;> simp [h, ih]

theorem replayList_eq_of_opt (cfg : Config) (now : Int)
    (L : List (String × List String)) (s s2 : St)
    (h : replayListOpt cfg now L s = some s2) : replayList cfg now L s = s2 := by
  induction L generalizing s with
  | nil =>
    simp [replayListOpt] at h
    simpa [replayList] using h
  | cons x L2 ih =>
    obtain ⟨c, as⟩ := x
    have h2 : (match executeCommand cfg now c as true s with
      | none => none
      | some (_, st2) => replayListOpt cfg now L2 st2) = some s2 := h
    show (match executeCommand cfg now c as true s with
      | none => s
      | some (_, st2) => replayList cfg now L2 st2) = s2
    rcases hx : executeCommand cfg now c as true s with _ | ⟨r, st2⟩
    · rw [hx] at h2
      simp at h2
    · rw [hx] at h2
      simpa using ih st2 h2

/-- The replay invariant carried along a live run: every logged line is
CRLF-free and survives the trim filter, and replaying the parsed log from
the empty state reproduces the current keyspace without appending. -/
def ReplayInv (cfg : Config) (now : Int) (st : St) : Prop :=
  (∀ l ∈ st.log, noCRLF l.data = true ∧ hasNonWS l.data = true)
  ∧ replayListOpt cfg now (st.log.map parseLogLine) emptySt = some { ks := st.ks, log := [] }

theorem replayInv_empty (cfg : Config) (now : Int) : ReplayInv cfg now emptySt :=
  ⟨fun l hl => absurd hl (by simp [emptySt]), rfl⟩

theorem inv_step (cfg : Config) (now : Int) (st st2 : St) (c : String)
    (as : List String) (r : String)
    (hrun : executeCommand cfg now c as false st = some (r, st2))
    (hcfg : cfg.appendOnly = true)
    (hmem : c ∈ cfg.appendOnlyCmds)
    (hane : ¬as = [])
    (hargs : ∀ a ∈ as, noSpaceL a.data = true ∧ noCRLF a.data = true)
    (hinv : ReplayInv cfg now st) : ReplayInv cfg now st2 := by
  rcases hh : commandHandlers c with _ | hd
  · simp only [executeCommand, hh] at hrun
    simp at hrun
    rw [← hrun.2]
    exact hinv
  · rcases hr2 : hd now st.ks as with _ | ⟨r2, ks2⟩
    · simp only [executeCommand, hh, hr2] at hrun
      exact Option.noConfusion hrun
    · have hgood := known_cmd_good c (by simp [hh])
      have happ : shouldAppendToAOF cfg c = true := by
        simp [shouldAppendToAOF, hcfg]
        exact hmem
      simp only [executeCommand, hh, hr2, happ, Bool.false_eq_true, if_false, if_true] at hrun
      simp at hrun
      obtain ⟨rfl, hst2⟩ := hrun
      rw [← hst2]
      have hline := logLine_good c as hgood.1 hgood.2.2 (fun a ha => (hargs a ha).2)
      constructor
      · intro l hl
        simp at hl
        rcases hl with hl | rfl
        · exact hinv.1 l hl
        · exact hline
      · rw [List.map_append, List.map_cons, List.map_nil,
          parseLogLine_roundtrip c as hgood.2.1 hane (fun a ha => (hargs a ha).1),
          replayListOpt_append, hinv.2]
        show stepOpt cfg now (c, as) { ks := st.ks, log := [] } = _
        simp only [stepOpt, executeCommand, hh]
        rw [hr2]
        simp

theorem runLive_inv (cfg : Config) (now : Int) (cmds : List (String × List String)) (st : St)
    (hcfg : cfg.appendOnly = true)
    (hcmds : ∀ p ∈ cmds, p.1 ∈ cfg.appendOnlyCmds ∧ ¬p.2 = []
      ∧ ∀ a ∈ p.2, noSpaceL a.data = true ∧ noCRLF a.data = true)
    (hinv : ReplayInv cfg now st) : ReplayInv cfg now (runLive cfg now cmds st) := by
  induction cmds generalizing st with
  | nil => exact hinv
  | cons x rest ih =>
    obtain ⟨c, as⟩ := x
    show ReplayInv cfg now (match executeCommand cfg now c as false st with
      | none => runLive cfg now rest st
      | some (_, st2) => runLive cfg now rest st2)
    rcases hx : executeCommand cfg now c as false st with _ | ⟨r, st2⟩
    · exact ih st (fun p hp => hcmds p (by simp [hp])) hinv
    · exact ih st2 (fun p hp => hcmds p (by simp [hp]))
        (inv_step cfg now st st2 c as r hx hcfg (hcmds (c, as) (by simp)).1
          (hcmds (c, as) (by simp)).2.1 (hcmds (c, as) (by simp)).2.2 hinv)

/-- C3 amended: for a sequence of commands whose names are all in the
configured append-only list and whose argument lists are non-empty with
space-free CRLF-free arguments, executed live from the empty state at a
fixed clock, replaying the resulting append-only file in order through
executeCommand with the replay flag reproduces exactly the live store and
expiration maps, and no replayed command appends to the log. -/
theorem aof_replay_roundtrip (cfg : Config) (now : Int)
    (cmds : List (String × List String))
    (hcfg : cfg.appendOnly = true)
    (hcmds : ∀ p ∈ cmds, p.1 ∈ cfg.appendOnlyCmds ∧ ¬p.2 = []
      ∧ ∀ a ∈ p.2, noSpaceL a.data = true ∧ noCRLF a.data = true) :
    (replayAofSync cfg now (fileOf (runLive cfg now cmds emptySt)) emptySt).ks
        = (runLive cfg now cmds emptySt).ks
    ∧ (replayAofSync cfg now (fileOf (runLive cfg now cmds emptySt)) emptySt).log = [] := by
  have hinv : ReplayInv cfg now (runLive cfg now cmds emptySt) :=
    runLive_inv cfg now cmds emptySt hcfg hcmds (replayInv_empty cfg now)
  have hfile : ((crlfSplitStr (fileOf (runLive cfg now cmds emptySt))).filter
      (fun l => hasNonWS l.data)) = (runLive cfg now cmds emptySt).log :=
    crlfSplit_file (fun l => hasNonWS l.data) _ (fun l hl => hinv.1 l hl) (by decide)
  have hreplay : replayAofSync cfg now (fileOf (runLive cfg now cmds emptySt)) emptySt
      = { ks := (runLive cfg now cmds emptySt).ks, log := [] } := by
    simp only [replayAofSync, hcfg, if_true]
    rw [hfile]
    exact replayList_eq_of_opt cfg now _ _ _ hinv.2
  rw [hreplay]
  exact ⟨rfl, rfl⟩

/-- Witness for C3 amended: a two-command live run round-trips. -/
theorem aof_replay_roundtrip_witness :
    (replayAofSync { appendOnly := true, appendOnlyCmds := ["SET", "LPUSH"] } 5
        (fileOf (runLive { appendOnly := true, appendOnlyCmds := ["SET", "LPUSH"] } 5
          ([("SET", ["k", "v"]), ("LPUSH", ["l", "a", "b"])]) emptySt)) emptySt).ks
      = (runLive { appendOnly := true, appendOnlyCmds := ["SET", "LPUSH"] } 5
          ([("SET", ["k", "v"]), ("LPUSH", ["l", "a", "b"])]) emptySt).ks
    ∧ (replayAofSync { appendOnly := true, appendOnlyCmds := ["SET", "LPUSH"] } 5
        (fileOf (runLive { appendOnly := true, appendOnlyCmds := ["SET", "LPUSH"] } 5
          ([("SET", ["k", "v"]), ("LPUSH", ["l", "a", "b"])]) emptySt)) emptySt).log = [] :=
  aof_replay_roundtrip { appendOnly := true, appendOnlyCmds := ["SET", "LPUSH"] } 5
    ([("SET", ["k", "v"]), ("LPUSH", ["l", "a", "b"])]) rfl (by decide)

/-- C3 counterexample: an argument containing a space breaks the log
round trip: live SET k (a b) stores the two-word string, but its log line
SET k a b replays as SET with arguments k, a, b, storing just a. -/
theorem aof_replay_counterexample :
    (runLive { appendOnly := true, appendOnlyCmds := ["SET"] } 0
        ([("SET", ["k", "a b"])]) emptySt).ks.store ("k")
      = some { type := "string", value := JsVal.str ("a b") }
    ∧ (replayAofSync { appendOnly := true, appendOnlyCmds := ["SET"] } 0
        (fileOf (runLive { appendOnly := true, appendOnlyCmds := ["SET"] } 0
          ([("SET", ["k", "a b"])]) emptySt)) emptySt).ks.store ("k")
      = some { type := "string", value := JsVal.str ("a") } := by
  decide

end RedisSpec
